import Mathlib

/-!
# Verification of the lyman preprocessing core

The repository's preprocessing implementation (`lyman/workflows/preproc.py`)
is not present in the source tree; only its test suite
(`lyman/workflows/tests/test_preproc.py`) is.  The numeric finalizers and the
iterable planner are therefore modelled here from the specification
(sections 4.1-4.5 of the design document), with the test suite's expected
arithmetic used to cross-check the modelling.

Volumes are flattened voxel arrays over ℚ (idealized exact arithmetic in
place of floating point); frame stacks index frames first, voxels second.
-/

namespace Lyman

/-- A volume: a flattened array of voxel intensities. -/
abbrev Volume (n : ℕ) := Fin n → ℚ

/-- A frame stack: `t` frames, each a volume over `n` voxels. -/
abbrev FrameStack (n t : ℕ) := Fin t → Fin n → ℚ

/-- A boolean mask over the voxel grid. -/
abbrev Mask (n : ℕ) := Fin n → Bool

/-- Modelled from the spec: the global intensity-normalization target
constant (10000) shared by TimeseriesFinalizer and TemplateFinalizer.
The implementation module `lyman/workflows/preproc.py` is missing from the
tree. -/
def target : ℚ := 10000

/-- The set of voxels inside a mask. -/
def maskedVoxels {n : ℕ} (mask : Mask n) : Finset (Fin n) :=
  Finset.univ.filter (fun v => mask v = true)

/- ### TransformComposer -/

/-- Modelled from the spec: `TransformComposer.compose` (the missing
`CombineLinearTransforms` interface of `lyman/workflows/preproc.py`):
`ts2fm = sb2fm · ts2sb` and `fm2template = anat2template · fm2anat`. -/
def composeTransforms (ts2sb sb2fm fm2anat anat2template : Matrix (Fin 4) (Fin 4) ℚ) :
    Matrix (Fin 4) (Fin 4) ℚ × Matrix (Fin 4) (Fin 4) ℚ :=
  (sb2fm * ts2sb, anat2template * fm2anat)

/- ### UnwarpFinalizer -/

/-- Modelled from the spec: the per-frame Jacobian modulation inside the
missing `FinalizeUnwarping` interface: `corrected_i * jacobian_i`. -/
def unwarpModulated {n t : ℕ} (corrected jacobian : FrameStack n t) : FrameStack n t :=
  fun i v => corrected i v * jacobian i v

/-- The temporal mean of a single voxel's time course. -/
def timeMean {t : ℕ} (x : Fin t → ℚ) : ℚ := (∑ i, x i) / (t : ℚ)

/-- Modelled from the spec: the corrected output of the missing
`FinalizeUnwarping` interface: the arithmetic mean over frames of the
Jacobian-modulated corrected stack, dividing by the raw frame count. -/
def unwarpCorrected {n t : ℕ} (corrected jacobian : FrameStack n t) : Volume n :=
  fun v => timeMean (fun i => unwarpModulated corrected jacobian i v)

/-- Follows the spec's words for the alternative the spec explicitly rejects:
a proper Jacobian-weighted average normalized by the summed Jacobian. -/
def unwarpBySummedJacobian {n t : ℕ} (corrected jacobian : FrameStack n t) : Volume n :=
  fun v => (∑ i, corrected i v * jacobian i v) / (∑ i, jacobian i v)

/- ### TimeseriesFinalizer -/

/-- Modelled from the spec: the field-of-view mask computed by the missing
`FinalizeTimeseries` interface: a voxel is in the field of view unless it is
identically excluded (zero) across the whole stack. -/
def fovMask {n t : ℕ} (ts : FrameStack n t) : Mask n :=
  fun v => !decide (∀ i, ts i v = 0)

/-- Modelled from the spec: the functional mask of the missing
`FinalizeTimeseries` interface: the brain mask AND-combined with the
field-of-view mask. -/
def funcMaskOf {n t : ℕ} (ts : FrameStack n t) (brainMask : Mask n) : Mask n :=
  fun v => brainMask v && fovMask ts v

/-- Jacobian modulation of a time series: each frame is multiplied voxelwise
by the (scalar-per-voxel) Jacobian map. -/
def modulateFrames {n t : ℕ} (ts : FrameStack n t) (jacobian : Volume n) : FrameStack n t :=
  fun i v => ts i v * jacobian v

/-- Restriction of a stack to a mask: voxels outside the mask are zero. -/
def applyMask {n t : ℕ} (mask : Mask n) (ts : FrameStack n t) : FrameStack n t :=
  fun i v => if mask v then ts i v else 0

/-- The mean over all in-mask voxel-timepoint values of a stack. -/
def globalMaskMean {n t : ℕ} (mask : Mask n) (ts : FrameStack n t) : ℚ :=
  (∑ v ∈ maskedVoxels mask, ∑ i, ts i v) /
    (((maskedVoxels mask).card : ℚ) * (t : ℚ))

/-- Modelled from the spec: the masked, Jacobian-modulated stack of the
missing `FinalizeTimeseries` interface, before intensity normalization. -/
def preNormStack {n t : ℕ} (ts : FrameStack n t) (jacobian : Volume n)
    (brainMask : Mask n) : FrameStack n t :=
  applyMask (funcMaskOf ts brainMask) (modulateFrames ts jacobian)

/-- Modelled from the spec: global intensity normalization in the missing
`FinalizeTimeseries` interface: the whole stack is rescaled by
`target / mean`, the mean taken over all in-mask voxel-timepoint values. -/
def normStack {n t : ℕ} (ts : FrameStack n t) (jacobian : Volume n)
    (brainMask : Mask n) : FrameStack n t :=
  fun i v => preNormStack ts jacobian brainMask i v *
    (target / globalMaskMean (funcMaskOf ts brainMask) (preNormStack ts jacobian brainMask))

/-- The time index of a frame, as a rational. -/
def timeIdx {t : ℕ} (i : Fin t) : ℚ := ((i : ℕ) : ℚ)

/-- The least-squares slope of the best-fit line through a time course. -/
def detrendSlope {t : ℕ} (x : Fin t → ℚ) : ℚ :=
  ((t : ℚ) * (∑ i, timeIdx i * x i) - (∑ i : Fin t, timeIdx i) * (∑ i, x i)) /
    ((t : ℚ) * (∑ i : Fin t, timeIdx i ^ 2) - (∑ i : Fin t, timeIdx i) ^ 2)

/-- The least-squares intercept of the best-fit line through a time course. -/
def detrendIntercept {t : ℕ} (x : Fin t → ℚ) : ℚ :=
  ((∑ i, x i) - detrendSlope x * (∑ i : Fin t, timeIdx i)) / (t : ℚ)

/-- Modelled from the spec: linear detrending of one voxel's time course in
the missing `FinalizeTimeseries` interface: subtract the best-fit
(least-squares) line, intercept included. -/
def detrendTC {t : ℕ} (x : Fin t → ℚ) : Fin t → ℚ :=
  fun i => x i - (detrendIntercept x + detrendSlope x * timeIdx i)

/-- Modelled from the spec: the output time series of the missing
`FinalizeTimeseries` interface: modulate by the Jacobian, restrict to the
functional mask, rescale globally to the target, then per in-mask voxel
detrend and add back that voxel's pre-detrend temporal mean; voxels outside
the functional mask are zero. -/
def finalizeTimeseriesOut {n t : ℕ} (ts : FrameStack n t) (jacobian : Volume n)
    (brainMask : Mask n) : FrameStack n t :=
  fun i v =>
    if funcMaskOf ts brainMask v then
      detrendTC (fun i0 => normStack ts jacobian brainMask i0 v) i +
        timeMean (fun i0 => normStack ts jacobian brainMask i0 v)
    else 0

/-- Modelled from the spec: the temporal-mean output of the missing
`FinalizeTimeseries` interface (temporal mean of the finalized series). -/
def tsMeanOut {n t : ℕ} (ts : FrameStack n t) (jacobian : Volume n)
    (brainMask : Mask n) : Volume n :=
  fun v => timeMean (fun i => finalizeTimeseriesOut ts jacobian brainMask i v)

/-- The temporal (population) variance of the finalized series at one voxel;
its square root is the temporal standard deviation. -/
def tsVarOut {n t : ℕ} (ts : FrameStack n t) (jacobian : Volume n)
    (brainMask : Mask n) : Volume n :=
  fun v => timeMean (fun i =>
    (finalizeTimeseriesOut ts jacobian brainMask i v - tsMeanOut ts jacobian brainMask v) ^ 2)

/-- Modelled from the spec: the temporal-SNR output of the missing
`FinalizeTimeseries` interface: `mean / std` over time per in-mask voxel,
zero outside the functional mask, with degenerate (zero) standard deviations
normalized to zero rather than surfaced. -/
noncomputable def tsTsnrOut {n t : ℕ} (ts : FrameStack n t) (jacobian : Volume n)
    (brainMask : Mask n) : Fin n → ℝ :=
  fun v =>
    if funcMaskOf ts brainMask v then
      ((tsMeanOut ts jacobian brainMask v : ℚ) : ℝ) /
        Real.sqrt ((tsVarOut ts jacobian brainMask v : ℚ) : ℝ)
    else 0

/- ### Concrete example inputs -/

/-- A one-voxel, one-frame stack with intensity 1. -/
def exTS1 : FrameStack 1 1 := fun _ _ => 1

/-- A unit Jacobian map on one voxel. -/
def exJac1 : Volume 1 := fun _ => 1

/-- The all-true brain mask on one voxel. -/
def exMaskTrue : Mask 1 := fun _ => true

/-- A one-voxel, one-frame stack that is identically zero (outside the field
of view). -/
def exTS0 : FrameStack 1 1 := fun _ _ => 0

/- ### TemplateFinalizer -/

/-- Modelled from the spec: the combined mask of the missing
`FinalizeTemplate` interface: the logical AND (conjunction) across all
per-run masks. -/
def combineMasks {n : ℕ} (ms : List (Mask n)) : Mask n :=
  fun v => ms.all (fun m => m v)

/-- Modelled from the spec: the combined noise mask of the missing
`FinalizeTemplate` interface: the logical OR (union) across all per-run
noise masks. -/
def combineNoiseMasks {n : ℕ} (ms : List (Mask n)) : Mask n :=
  fun v => ms.any (fun m => m v)

/-- The combined noise mask emitted as a numeric 0/1 volume. -/
def noiseMaskOut {n : ℕ} (ms : List (Mask n)) : Volume n :=
  fun v => if combineNoiseMasks ms v then 1 else 0

/-- Modelled from the spec: the combined mean / tSNR statistic of the missing
`FinalizeTemplate` interface: the arithmetic mean across runs of the per-run
volumes, restricted to the combined mask (zero elsewhere). -/
def combineStatMaps {n : ℕ} (mask : Mask n) (stats : List (Volume n)) : Volume n :=
  fun v => if mask v then ((stats.map (fun x => x v)).sum) / (stats.length : ℚ) else 0

/-- The mean of a volume over the voxels of a mask. -/
def maskMean {n : ℕ} (mask : Mask n) (x : Volume n) : ℚ :=
  (∑ v ∈ maskedVoxels mask, x v) / ((maskedVoxels mask).card : ℚ)

/-- Jacobian modulation of the pooled template frames. -/
def templateModulated {n f : ℕ} (frames jacobian : Fin f → Volume n) : Fin f → Volume n :=
  fun j v => frames j v * jacobian j v

/-- Modelled from the spec: intensity normalization of the pooled template
frames in the missing `FinalizeTemplate` interface: each in-mask voxel of
frame `j` is rescaled by `target` divided by frame `j`'s own mean over the
combined mask; voxels outside the mask are left unscaled. -/
def templateNormalized {n f : ℕ} (mask : Mask n) (frames jacobian : Fin f → Volume n) :
    Fin f → Volume n :=
  fun j v =>
    if mask v then
      templateModulated frames jacobian j v *
        (target / maskMean mask (templateModulated frames jacobian j))
    else templateModulated frames jacobian j v

/-- Modelled from the spec: the final template volume of the missing
`FinalizeTemplate` interface: average the normalized pooled frames and
restrict to the combined mask (zero elsewhere). -/
def templateOut {n f : ℕ} (mask : Mask n) (frames jacobian : Fin f → Volume n) : Volume n :=
  fun v => if mask v then (∑ j, templateNormalized mask frames jacobian j v) / (f : ℚ) else 0

/-- A two-voxel run mask covering only voxel 0. -/
def cxRunMask : Mask 2 := fun v => decide (v = 0)

/-- A two-voxel noise mask flagging only voxel 1. -/
def cxNoiseMask : Mask 2 := fun v => decide (v = 1)

/-- A one-voxel mask excluding its voxel. -/
def exZeroMask : Mask 1 := fun _ => false

/-- A one-voxel all-true run mask. -/
def exRunMaskTrue : Mask 1 := fun _ => true

/-- A constant one-voxel statistic volume with value 5. -/
def exStat5 : Volume 1 := fun _ => 5

/-- A constant one-voxel statistic volume with value 7. -/
def exStat7 : Volume 1 := fun _ => 7

/-- A single pooled template frame with constant intensity 2. -/
def exFrames2 : Fin 1 → Volume 1 := fun _ _ => 2

/-- A single per-frame Jacobian with constant value 3. -/
def exJacF3 : Fin 1 → Volume 1 := fun _ _ => 3

/- ### Motion parameters -/

/-- The six rigid-body motion parameters. -/
inductive MotionAxis where
  | rotX
  | rotY
  | rotZ
  | transX
  | transY
  | transZ
  deriving DecidableEq

/-- The output column convention:
(rotation_x, rotation_y, rotation_z, translation_x, translation_y,
translation_z). -/
def canonicalAxis : Fin 6 → MotionAxis :=
  ![MotionAxis.rotX, MotionAxis.rotY, MotionAxis.rotZ,
    MotionAxis.transX, MotionAxis.transY, MotionAxis.transZ]

/-- Modelled from the spec: the motion-parameter re-emission of the missing
`FinalizeTimeseries` interface.  The raw input matrix carries one column per
parameter under the input's column convention `conv` (which input column
holds each semantic axis); the output holds, in column `k`, the values of the
`k`-th canonical axis, a unit-preserving passthrough. -/
def finalizeMotionParams {tp : ℕ} (raw : Fin tp → Fin 6 → ℚ)
    (conv : MotionAxis → Fin 6) : Fin tp → Fin 6 → ℚ :=
  fun r k => raw r (conv (canonicalAxis k))

/-- The canonical column index of each motion axis. -/
def axisIdx : MotionAxis → Fin 6
  | MotionAxis.rotX => 0
  | MotionAxis.rotY => 1
  | MotionAxis.rotZ => 2
  | MotionAxis.transX => 3
  | MotionAxis.transY => 4
  | MotionAxis.transZ => 5

/-- A one-row motion-parameter matrix in canonical column order. -/
def exRawCanonical : Fin 1 → Fin 6 → ℚ := fun _ k => ((k : ℕ) : ℚ)

/-- The same motion parameters stored with the column order reversed. -/
def exRawReversed : Fin 1 → Fin 6 → ℚ := fun _ k => ((k.rev : ℕ) : ℚ)

/-- The canonical input column convention. -/
def exConvCanonical : MotionAxis → Fin 6 := axisIdx

/-- The reversed input column convention. -/
def exConvReversed : MotionAxis → Fin 6 := fun a => (axisIdx a).rev

/- ### IterablePlanner -/

/-- The scan hierarchy: subject → session → experiment → ordered run list,
as an association-list structure. -/
abbrev ScanInfo := List (String × List (String × List (String × List String)))

/-- First-match association-list lookup on string keys. -/
def alistFind {β : Type} (key : String) : List (String × β) → Option β
  | [] => none
  | (k, val) :: rest => if k = key then some val else alistFind key rest

/-- Insertion into a lexicographically sorted list of identifiers. -/
def insertSorted (x : String) : List String → List String
  | [] => [x]
  | y :: ys => if x < y then x :: y :: ys else y :: insertSorted x ys

/-- Lexicographic (insertion) sort of identifiers, giving the deterministic
iteration order the spec requires regardless of the mapping's native order. -/
def sortStrings (l : List String) : List String := l.foldr insertSorted []

/-- The lexicographically ordered sessions recorded for a subject. -/
def subjectSessions (si : ScanInfo) (subj : String) : List String :=
  match alistFind subj si with
  | none => []
  | some sessList => sortStrings (sessList.map Prod.fst)

/-- The ordered run list recorded for (subject, session, experiment). -/
def qualifyingRuns (si : ScanInfo) (expName subj sess : String) : List String :=
  match alistFind subj si with
  | none => []
  | some sessList =>
    match alistFind sess sessList with
    | none => []
    | some expList =>
      match alistFind expName expList with
      | none => []
      | some runs => runs

/-- Modelled from the spec: a session qualifies for the missing
`generate_iterables` function when it passes the optional session filter and
has at least one run of the requested experiment. -/
def sessionQualifies (si : ScanInfo) (expName : String)
    (sessFilter : Option (List String)) (subj sess : String) : Bool :=
  (match sessFilter with
   | none => true
   | some l => decide (sess ∈ l)) &&
  decide (qualifyingRuns si expName subj sess ≠ [])

/-- The qualifying sessions of a subject, in lexicographic order. -/
def qualifyingSessions (si : ScanInfo) (expName : String)
    (sessFilter : Option (List String)) (subj : String) : List String :=
  (subjectSessions si subj).filter (sessionQualifies si expName sessFilter subj)

/-- Modelled from the spec: the missing `generate_iterables` function of
`lyman/workflows/preproc.py`: subject list (caller order, only subjects with
data), session map (subject → ordered session tuples) and run map (session
tuple → ordered run tuples); entries with zero qualifying runs are dropped
entirely. -/
def generateIterables (si : ScanInfo) (expName : String) (subjects : List String)
    (sessions : Option (List String)) :
    List String × List (String × List (String × String)) ×
      List ((String × String) × List (String × String × String)) :=
  let subjList := subjects.filter
    (fun s => decide (qualifyingSessions si expName sessions s ≠ []))
  let sessionMap := subjList.map
    (fun s => (s, (qualifyingSessions si expName sessions s).map (fun e => (s, e))))
  let runMap := subjList.flatMap
    (fun s => (qualifyingSessions si expName sessions s).map
      (fun e => ((s, e), (qualifyingRuns si expName s e).map (fun r => (s, e, r)))))
  (subjList, sessionMap, runMap)

/-- The scan hierarchy used by the repository's test fixtures. -/
def exampleScanInfo : ScanInfo :=
  [("subj01",
    [("sess01", [("exp_alpha", ["run01", "run02"])]),
     ("sess02", [("exp_alpha", ["run01"]),
                 ("exp_beta", ["run01", "run02", "run03"])])]),
   ("subj02",
    [("sess01", [("exp_alpha", ["run01", "run02", "run03"])])])]

end Lyman

namespace Lyman

/- ### Theorems -/

/-- Claim C3: for all 4x4 input matrices, `TransformComposer.compose` returns
`ts2fm` equal to the matrix product `sb2fm · ts2sb` and `fm2template` equal to
the matrix product `anat2template · fm2anat`, exactly, where the product is
genuine matrix multiplication (row-column sums), not an elementwise product. -/
theorem composeTransforms_correct (ts2sb sb2fm fm2anat anat2template :
    Matrix (Fin 4) (Fin 4) ℚ) :
    (composeTransforms ts2sb sb2fm fm2anat anat2template).1 = sb2fm * ts2sb ∧
    (composeTransforms ts2sb sb2fm fm2anat anat2template).2 = anat2template * fm2anat ∧
    (∀ i j, (composeTransforms ts2sb sb2fm fm2anat anat2template).1 i j
        = ∑ k, sb2fm i k * ts2sb k j) ∧
    (∀ i j, (composeTransforms ts2sb sb2fm fm2anat anat2template).2 i j
        = ∑ k, anat2template i k * fm2anat k j) := by
  refine ⟨rfl, rfl, ?_, ?_⟩ <;> intro i j <;>
    simp [composeTransforms, Matrix.mul_apply]

/-- Claim C2: the corrected output of `UnwarpFinalizer` equals, at every
voxel, the sum over frames of `corrected_i * jacobian_i` divided by the raw
frame count `n_frames`; moreover this is not the normalization by the summed
Jacobian (a concrete input separates the two). -/
theorem unwarpCorrected_is_frame_count_mean :
    (∀ (n t : ℕ) (corrected jacobian : FrameStack n t) (v : Fin n),
        unwarpCorrected corrected jacobian v
          = (∑ i, corrected i v * jacobian i v) / (t : ℚ)) ∧
    (∃ (corrected jacobian : FrameStack 1 2) (v : Fin 1),
        unwarpCorrected corrected jacobian v
          ≠ unwarpBySummedJacobian corrected jacobian v) := by
  constructor
  · intro n t corrected jacobian v
    rfl
  · refine ⟨fun _ _ => 1, fun i _ => if i = 0 then 1 else 2, 0, ?_⟩
    norm_num [unwarpCorrected, unwarpBySummedJacobian, unwarpModulated, timeMean,
      Fin.sum_univ_two]

/-- Detrending subtracts the full best-fit line (intercept included), so a
detrended time course sums to zero. -/
lemma detrendTC_sum_zero {t : ℕ} (ht : 0 < t) (x : Fin t → ℚ) :
    ∑ i, detrendTC x i = 0 := by
  have htQ : (t : ℚ) ≠ 0 := Nat.cast_ne_zero.mpr ht.ne'
  have hA : (t : ℚ) * detrendIntercept x
      = (∑ i, x i) - detrendSlope x * (∑ i : Fin t, timeIdx i) := by
    rw [detrendIntercept]
    field_simp
  calc ∑ i, detrendTC x i
      = (∑ i, x i) -
        ((t : ℚ) * detrendIntercept x + detrendSlope x * (∑ i : Fin t, timeIdx i)) := by
        simp only [detrendTC]
        rw [Finset.sum_sub_distrib, Finset.sum_add_distrib, Finset.sum_const,
          Finset.card_univ, Fintype.card_fin, nsmul_eq_mul, ← Finset.mul_sum]
    _ = 0 := by rw [hA]; ring

/-- On an in-mask voxel the finalized series and the normalized series have
the same temporal sum: the detrended part sums to zero and the restored mean
contributes `t` times the pre-detrend mean. -/
lemma finalizeTimeseriesOut_sum_eq {n t : ℕ} (ts : FrameStack n t)
    (jacobian : Volume n) (brainMask : Mask n) (v : Fin n) (ht : 0 < t)
    (hv : funcMaskOf ts brainMask v = true) :
    ∑ i, finalizeTimeseriesOut ts jacobian brainMask i v
      = ∑ i, normStack ts jacobian brainMask i v := by
  have htQ : (t : ℚ) ≠ 0 := Nat.cast_ne_zero.mpr ht.ne'
  simp only [finalizeTimeseriesOut, hv, if_true]
  rw [Finset.sum_add_distrib, detrendTC_sum_zero ht, zero_add, Finset.sum_const,
    Finset.card_univ, Fintype.card_fin, nsmul_eq_mul, timeMean,
    ← mul_div_assoc, mul_div_cancel_left₀ _ htQ]

/-- Claim C1: for every finite, non-degenerate input stack, Jacobian and
brain mask, the in-mask global mean (over all in-mask voxel-timepoint values)
of the intensity-normalized, detrended output of `TimeseriesFinalizer` equals
the fixed target constant 10000 (exactly, in the idealized rational
arithmetic standing in for floating point). -/
theorem finalizeTimeseries_global_mean_target {n t : ℕ} (ts : FrameStack n t)
    (jacobian : Volume n) (brainMask : Mask n)
    (ht : 0 < t)
    (_hk : 0 < (maskedVoxels (funcMaskOf ts brainMask)).card)
    (hgm : globalMaskMean (funcMaskOf ts brainMask) (preNormStack ts jacobian brainMask) ≠ 0) :
    globalMaskMean (funcMaskOf ts brainMask) (finalizeTimeseriesOut ts jacobian brainMask)
      = target := by
  have hsum : ∀ v ∈ maskedVoxels (funcMaskOf ts brainMask),
      ∑ i, finalizeTimeseriesOut ts jacobian brainMask i v
        = ∑ i, normStack ts jacobian brainMask i v := by
    intro v hv
    have hv' : funcMaskOf ts brainMask v = true := by
      simpa [maskedVoxels, Finset.mem_filter] using hv
    exact finalizeTimeseriesOut_sum_eq ts jacobian brainMask v ht hv'
  have hinner : ∀ v ∈ maskedVoxels (funcMaskOf ts brainMask),
      ∑ i, normStack ts jacobian brainMask i v
        = (∑ i, preNormStack ts jacobian brainMask i v) *
          (target / globalMaskMean (funcMaskOf ts brainMask)
            (preNormStack ts jacobian brainMask)) := by
    intro v _
    simp only [normStack]
    rw [← Finset.sum_mul]
  rw [globalMaskMean, Finset.sum_congr rfl hsum, Finset.sum_congr rfl hinner,
    ← Finset.sum_mul, mul_div_right_comm]
  show globalMaskMean (funcMaskOf ts brainMask) (preNormStack ts jacobian brainMask) *
      (target / globalMaskMean (funcMaskOf ts brainMask) (preNormStack ts jacobian brainMask))
      = target
  rw [mul_comm, div_mul_cancel₀ target hgm]

/-- Claim C8: for each in-mask voxel the per-voxel temporal mean of the
detrended output equals the per-voxel temporal mean before detrending
(detrend-then-restore preserves the voxel mean). -/
theorem finalizeTimeseries_detrend_preserves_mean {n t : ℕ} (ts : FrameStack n t)
    (jacobian : Volume n) (brainMask : Mask n) (v : Fin n)
    (ht : 0 < t) (hv : funcMaskOf ts brainMask v = true) :
    timeMean (fun i => finalizeTimeseriesOut ts jacobian brainMask i v)
      = timeMean (fun i => normStack ts jacobian brainMask i v) := by
  simp only [timeMean]
  rw [finalizeTimeseriesOut_sum_eq ts jacobian brainMask v ht hv]

/-- Claim C7: the temporal-mean and tSNR outputs of `TimeseriesFinalizer` are
zero at every voxel outside the functional mask, and a zero temporal standard
deviation (degenerate tSNR denominator) never raises an error and never
propagates NaN: such voxels are normalized to zero. -/
theorem finalizeTimeseries_stats_masked {n t : ℕ} (ts : FrameStack n t)
    (jacobian : Volume n) (brainMask : Mask n) (v : Fin n) :
    (funcMaskOf ts brainMask v = false →
      tsMeanOut ts jacobian brainMask v = 0 ∧ tsTsnrOut ts jacobian brainMask v = 0) ∧
    (tsVarOut ts jacobian brainMask v = 0 → tsTsnrOut ts jacobian brainMask v = 0) := by
  constructor
  · intro h
    have hz : ∀ i : Fin t, finalizeTimeseriesOut ts jacobian brainMask i v = 0 := by
      intro i
      simp [finalizeTimeseriesOut, h]
    constructor
    · simp [tsMeanOut, timeMean, hz]
    · simp [tsTsnrOut, h]
  · intro h
    by_cases hm : funcMaskOf ts brainMask v = true
    · simp [tsTsnrOut, hm, h, Real.sqrt_zero]
    · simp [tsTsnrOut, hm]

/-- Witness for claim C1 at a concrete one-voxel, one-frame input. -/
theorem finalizeTimeseries_global_mean_target_witness :
    0 < 1 ∧
    0 < (maskedVoxels (funcMaskOf exTS1 exMaskTrue)).card ∧
    globalMaskMean (funcMaskOf exTS1 exMaskTrue) (preNormStack exTS1 exJac1 exMaskTrue) ≠ 0 ∧
    globalMaskMean (funcMaskOf exTS1 exMaskTrue)
      (finalizeTimeseriesOut exTS1 exJac1 exMaskTrue) = target := by
  have hgm : globalMaskMean (funcMaskOf exTS1 exMaskTrue)
      (preNormStack exTS1 exJac1 exMaskTrue) ≠ 0 := by
    have h1 : maskedVoxels (funcMaskOf exTS1 exMaskTrue) = Finset.univ := by decide
    have hm : funcMaskOf exTS1 exMaskTrue 0 = true := by decide
    rw [globalMaskMean, h1]
    simp [Fin.sum_univ_one, preNormStack, applyMask, modulateFrames, hm, exTS1, exJac1]
    decide
  exact ⟨Nat.one_pos, by decide, hgm,
    finalizeTimeseries_global_mean_target exTS1 exJac1 exMaskTrue Nat.one_pos
      (by decide) hgm⟩

/-- Witness for claim C8 at a concrete one-voxel, one-frame input. -/
theorem finalizeTimeseries_detrend_preserves_mean_witness :
    0 < 1 ∧ funcMaskOf exTS1 exMaskTrue 0 = true ∧
    timeMean (fun i => finalizeTimeseriesOut exTS1 exJac1 exMaskTrue i 0)
      = timeMean (fun i => normStack exTS1 exJac1 exMaskTrue i 0) :=
  ⟨Nat.one_pos, by decide,
    finalizeTimeseries_detrend_preserves_mean exTS1 exJac1 exMaskTrue 0 Nat.one_pos
      (by decide)⟩

/-- Witness for claim C7 at a concrete input whose only voxel lies outside
the field of view (hence outside the functional mask) and has zero temporal
standard deviation. -/
theorem finalizeTimeseries_stats_masked_witness :
    funcMaskOf exTS0 exMaskTrue 0 = false ∧
    (tsMeanOut exTS0 exJac1 exMaskTrue 0 = 0 ∧ tsTsnrOut exTS0 exJac1 exMaskTrue 0 = 0) ∧
    tsVarOut exTS0 exJac1 exMaskTrue 0 = 0 ∧
    tsTsnrOut exTS0 exJac1 exMaskTrue 0 = 0 := by
  have h1 : funcMaskOf exTS0 exMaskTrue 0 = false := by decide
  have h2 := (finalizeTimeseries_stats_masked exTS0 exJac1 exMaskTrue 0).1 h1
  have hz : ∀ i : Fin 1, finalizeTimeseriesOut exTS0 exJac1 exMaskTrue i 0 = 0 := by
    intro i
    simp [finalizeTimeseriesOut, h1]
  have hvar : tsVarOut exTS0 exJac1 exMaskTrue 0 = 0 := by
    simp [tsVarOut, timeMean, hz, h2.1]
  exact ⟨h1, h2, hvar, (finalizeTimeseries_stats_masked exTS0 exJac1 exMaskTrue 0).2 hvar⟩

/-- Claim C4: for any list of runs, `TemplateFinalizer`'s combined mask holds
at a voxel iff every run's mask holds there (logical AND), and its combined
noise mask holds iff some run's noise mask holds there (logical OR). -/
theorem combineMasks_and_or {n : ℕ} (ms ns : List (Mask n)) (v : Fin n) :
    (combineMasks ms v = true ↔ ∀ m ∈ ms, m v = true) ∧
    (combineNoiseMasks ns v = true ↔ ∃ m ∈ ns, m v = true) := by
  constructor
  · simp [combineMasks, List.all_eq_true]
  · simp [combineNoiseMasks, List.any_eq_true]

/-- Counterexample to claim C5 as stated: with one run whose mask covers only
voxel 0 and whose noise mask flags voxel 1, the combined noise mask is 1 at
voxel 1 even though voxel 1 is outside the combined mask. -/
theorem templateNoise_nonzero_outside_mask_cx :
    combineMasks [cxRunMask] 1 = false ∧ noiseMaskOut [cxNoiseMask] 1 = 1 := by
  constructor
  · decide
  · simp [noiseMaskOut, combineNoiseMasks, cxNoiseMask]

/-- Claim C5 (amended): the combined mean, the combined tSNR, and the final
template of `TemplateFinalizer` are exactly zero at every voxel outside the
combined mask; the combined noise mask is exempt (it is the plain OR of the
per-run noise masks and may be nonzero there). -/
theorem templateStats_zero_outside_mask {n f : ℕ} (ms : List (Mask n))
    (means tsnrs : List (Volume n)) (frames jacobian : Fin f → Volume n) (v : Fin n)
    (hv : combineMasks ms v = false) :
    combineStatMaps (combineMasks ms) means v = 0 ∧
    combineStatMaps (combineMasks ms) tsnrs v = 0 ∧
    templateOut (combineMasks ms) frames jacobian v = 0 := by
  refine ⟨?_, ?_, ?_⟩ <;> simp [combineStatMaps, templateOut, hv]

/-- Witness for the amended claim C5 at a concrete one-voxel input whose
combined mask is empty. -/
theorem templateStats_zero_outside_mask_witness :
    combineMasks [exZeroMask] 0 = false ∧
    combineStatMaps (combineMasks [exZeroMask]) [exStat5] 0 = 0 ∧
    combineStatMaps (combineMasks [exZeroMask]) [exStat7] 0 = 0 ∧
    templateOut (combineMasks [exZeroMask]) exFrames2 exJacF3 0 = 0 := by
  have h := templateStats_zero_outside_mask [exZeroMask] [exStat5] [exStat7]
    exFrames2 exJacF3 0 (by decide)
  exact ⟨by decide, h.1, h.2.1, h.2.2⟩

/-- Claim C10: in `TemplateFinalizer`'s final-template construction each
pooled Jacobian-modulated frame is normalized independently, by the target
divided by that frame's own mean over the combined mask, so each single
frame's in-mask mean equals the target (10000) before the across-frame
average is taken. -/
theorem templateNormalized_frame_mean_target {n f : ℕ} (ms : List (Mask n))
    (frames jacobian : Fin f → Volume n) (j : Fin f)
    (hm : maskMean (combineMasks ms) (templateModulated frames jacobian j) ≠ 0) :
    maskMean (combineMasks ms) (templateNormalized (combineMasks ms) frames jacobian j)
      = target := by
  have hcong : ∀ v ∈ maskedVoxels (combineMasks ms),
      templateNormalized (combineMasks ms) frames jacobian j v
        = templateModulated frames jacobian j v *
          (target / maskMean (combineMasks ms) (templateModulated frames jacobian j)) := by
    intro v hv
    have hv' : combineMasks ms v = true := by
      simpa [maskedVoxels, Finset.mem_filter] using hv
    simp [templateNormalized, hv']
  rw [maskMean, Finset.sum_congr rfl hcong, ← Finset.sum_mul, mul_div_right_comm]
  show maskMean (combineMasks ms) (templateModulated frames jacobian j) *
      (target / maskMean (combineMasks ms) (templateModulated frames jacobian j)) = target
  rw [mul_comm, div_mul_cancel₀ target hm]

/-- Witness for claim C10 at a concrete one-voxel, one-frame input. -/
theorem templateNormalized_frame_mean_target_witness :
    maskMean (combineMasks [exRunMaskTrue]) (templateModulated exFrames2 exJacF3 0) ≠ 0 ∧
    maskMean (combineMasks [exRunMaskTrue])
      (templateNormalized (combineMasks [exRunMaskTrue]) exFrames2 exJacF3 0) = target := by
  have hm : maskMean (combineMasks [exRunMaskTrue])
      (templateModulated exFrames2 exJacF3 0) ≠ 0 := by
    have h1 : maskedVoxels (combineMasks [exRunMaskTrue]) = Finset.univ := by decide
    rw [maskMean, h1]
    simp [Fin.sum_univ_one, templateModulated, exFrames2, exJacF3]
  exact ⟨hm, templateNormalized_frame_mean_target [exRunMaskTrue] exFrames2 exJacF3 0 hm⟩

/-- Claim C9: `TimeseriesFinalizer` re-emits the motion parameters with
columns ordered (rotation_x, rotation_y, rotation_z, translation_x,
translation_y, translation_z): output column `k` holds the values of the
`k`-th canonical axis as a unit-preserving passthrough, and two raw inputs
carrying the same semantic values under different column conventions
produce identical outputs. -/
theorem finalizeMotionParams_reorders {tp : ℕ} (raw raw2 : Fin tp → Fin 6 → ℚ)
    (conv conv2 : MotionAxis → Fin 6)
    (hsem : ∀ r a, raw2 r (conv2 a) = raw r (conv a)) :
    (∀ r k, finalizeMotionParams raw conv r k = raw r (conv (canonicalAxis k))) ∧
    finalizeMotionParams raw2 conv2 = finalizeMotionParams raw conv := by
  refine ⟨fun r k => rfl, ?_⟩
  funext r k
  exact hsem r (canonicalAxis k)

/-- Witness for claim C9: the same motion parameters stored in canonical and
in reversed column order yield identical re-emitted outputs. -/
theorem finalizeMotionParams_reorders_witness :
    (∀ r a, exRawReversed r (exConvReversed a) = exRawCanonical r (exConvCanonical a)) ∧
    (∀ r k, finalizeMotionParams exRawCanonical exConvCanonical r k
        = exRawCanonical r (exConvCanonical (canonicalAxis k))) ∧
    finalizeMotionParams exRawReversed exConvReversed
      = finalizeMotionParams exRawCanonical exConvCanonical := by
  have hsem : ∀ r a, exRawReversed r (exConvReversed a)
      = exRawCanonical r (exConvCanonical a) := by
    intro r a
    cases a <;> rfl
  have h := finalizeMotionParams_reorders exRawCanonical exRawReversed
    exConvCanonical exConvReversed hsem
  exact ⟨hsem, h.1, h.2⟩

/-- Claim C6: a subject or session with zero qualifying runs for the
requested experiment after filtering is absent from all three outputs of the
iterable planner (never represented as an empty list), and repeated calls
with the same inputs agree exactly. -/
theorem generateIterables_drops_empty (si : ScanInfo) (expName : String)
    (subjects : List String) (sessions : Option (List String)) (s sess : String)
    (h : sessionQualifies si expName sessions s sess = false) :
    (∀ s0 sl, (s0, sl) ∈ (generateIterables si expName subjects sessions).2.1 →
      (s, sess) ∉ sl) ∧
    (∀ rl, ((s, sess), rl) ∉ (generateIterables si expName subjects sessions).2.2) ∧
    ((∀ e ∈ subjectSessions si s, sessionQualifies si expName sessions s e = false) →
      s ∉ (generateIterables si expName subjects sessions).1 ∧
      (∀ sl, (s, sl) ∉ (generateIterables si expName subjects sessions).2.1) ∧
      (∀ e rl, ((s, e), rl) ∉ (generateIterables si expName subjects sessions).2.2)) ∧
    generateIterables si expName subjects sessions
      = generateIterables si expName subjects sessions := by
  have hqual : ∀ x e, e ∈ qualifyingSessions si expName sessions x →
      sessionQualifies si expName sessions x e = true := by
    intro x e he
    exact (List.mem_filter.mp he).2
  refine ⟨?_, ?_, ?_, rfl⟩
  · intro s0 sl hmem hcontra
    simp only [generateIterables, List.mem_map] at hmem
    obtain ⟨x, _, heq⟩ := hmem
    obtain ⟨rfl, rfl⟩ := Prod.mk.injEq .. |>.mp heq
    simp only [List.mem_map, Prod.mk.injEq] at hcontra
    obtain ⟨e, he, rfl, rfl⟩ := hcontra
    exact absurd (hqual _ _ he) (by simp [h])
  · intro rl hmem
    simp only [generateIterables, List.mem_flatMap, List.mem_map,
      Prod.mk.injEq] at hmem
    obtain ⟨x, _, e, he, ⟨rfl, rfl⟩, _⟩ := hmem
    exact absurd (hqual _ _ he) (by simp [h])
  · intro hall
    have hqs : qualifyingSessions si expName sessions s = [] := by
      refine List.filter_eq_nil_iff.mpr ?_
      intro e he
      simp [hall e he]
    refine ⟨?_, ?_, ?_⟩
    · intro hs
      have := (List.mem_filter.mp hs).2
      rw [hqs] at this
      simp at this
    · intro sl hsl
      simp only [generateIterables, List.mem_map] at hsl
      obtain ⟨x, hx, heq⟩ := hsl
      obtain ⟨rfl, rfl⟩ := Prod.mk.injEq .. |>.mp heq
      have := (List.mem_filter.mp hx).2
      rw [hqs] at this
      simp at this
    · intro e rl hrl
      simp only [generateIterables, List.mem_flatMap, List.mem_map,
        Prod.mk.injEq] at hrl
      obtain ⟨x, hx, e0, he0, ⟨rfl, rfl⟩, _⟩ := hrl
      have := (List.mem_filter.mp hx).2
      rw [hqs] at this
      simp at this

/-- Witness for claim C6 on the test fixtures' scan hierarchy: subj02 has no
runs of exp_beta and is dropped from the subject list. -/
theorem generateIterables_drops_empty_witness :
    sessionQualifies exampleScanInfo "exp_beta" none "subj02" "sess01" = false ∧
    (∀ e ∈ subjectSessions exampleScanInfo "subj02",
      sessionQualifies exampleScanInfo "exp_beta" none "subj02" e = false) ∧
    "subj02" ∉ (generateIterables exampleScanInfo "exp_beta" ["subj01", "subj02"] none).1 := by
  have h := generateIterables_drops_empty exampleScanInfo "exp_beta"
    ["subj01", "subj02"] none "subj02" "sess01" (by decide)
  exact ⟨by decide, by decide, (h.2.2.1 (by decide)).1⟩

end Lyman
